import Mathlib

/-!
Shallow embedding of the grid-game service (TypeScript sources
`src/services/gameService.ts` and its N-by-N variant).  The service keeps a
game session (status, grid, participants, move log), a player registry and a
per-player statistics table in a relational store; here the store is explicit
state threaded through each operation.  JavaScript numbers that only ever
hold small integers are modelled as `Nat`/`Int`; the floating-point
expressions fed to `Math.round` are modelled exactly over `Rat`.
-/

/-- Game lifecycle status (`GameStatus` in the source): `waiting`, `active`,
`completed`. -/
inductive GameStatus where
  | waiting
  | active
  | completed
  deriving DecidableEq, Repr

/-- Discriminant of the `GameError` union type in the source. -/
inductive ErrType where
  | INVALID_MOVE
  | GAME_NOT_FOUND
  | PLAYER_NOT_FOUND
  | GAME_FULL
  | NOT_YOUR_TURN
  | CELL_OCCUPIED
  | GAME_NOT_ACTIVE
  | ALREADY_JOINED
  deriving DecidableEq, Repr

/-- Typed failure outcome of the service: a kind plus a message, exactly the
`{type, message}` objects the source returns. -/
structure GameError where
  type : ErrType
  message : String
  deriving DecidableEq, Repr

/-- One row of the `game_participants` table restricted to one game. -/
structure Participant where
  playerId : Nat
  playerOrder : Nat
  deriving DecidableEq, Repr, Inhabited

/-- One row of the append-only `game_moves` log restricted to one game. -/
structure MoveRec where
  playerId : Nat
  row : Int
  col : Int
  moveNumber : Nat
  deriving DecidableEq, Repr, Inhabited

/-- One row of the `player_stats` table.  `winRate` and `efficiency` are the
stored scaled integers (two implied decimals). -/
structure PStats where
  gamesPlayed : Nat
  gamesWon : Nat
  totalMoves : Nat
  winRate : Int
  efficiency : Int
  deriving DecidableEq, Repr, Inhabited

/-- The grid: a list of rows, each cell empty (`none`) or holding a player id. -/
abbrev Grid := List (List (Option Nat))

/-- Reading `grid[r][c]`; out-of-range reads yield `none` (the saved grids are
always rectangular, so in-range reads match the source exactly). -/
def cell (g : Grid) (r c : Nat) : Option Nat :=
  (g.getD r []).getD c none

/-- Writing `newGrid[row][col] = v` after the row-copying the source does. -/
def setCell (g : Grid) (r c : Nat) (v : Option Nat) : Grid :=
  g.set r ((g.getD r []).set c v)

/-- Truthiness of a JavaScript `number | null` value: `null` and `0` are falsy. -/
def jsTruthy (o : Option Nat) : Bool :=
  match o with
  | none => false
  | some n => n != 0

/-- `Math.round` on a non-negative value: round half away from zero, which for
the non-negative inputs of this program is floor of the value plus one half. -/
def jsRound (q : Rat) : Int :=
  ⌊q + 1 / 2⌋

/-- The in-memory game session corresponding to one `game_sessions` row plus
its participants and move log.  `completedAt` records only whether the
timestamp column has been set. -/
structure Game where
  status : GameStatus
  winnerId : Option Nat
  isDraw : Bool
  currentTurn : Option Nat
  grid : Grid
  participants : List Participant
  moves : List MoveRec
  completedAt : Bool
  deriving DecidableEq, Repr

/-- The whole store: the player registry (index `i` is the name of player
`i + 1`, ids being serial), the single game session under study, and the
`player_stats` table as an association list. -/
structure World where
  players : List String
  game : Game
  stats : List (Nat × PStats)
  deriving DecidableEq, Repr

/-- A player as returned by the registry. -/
structure Player where
  id : Nat
  name : String
  deriving DecidableEq, Repr

/-- Winner scan of the fixed 3-by-3 `checkWinner` in `gameService.ts`: three
rows, three columns, then the two main diagonals, each line compared with
strict equality against its first cell; the first complete line's value is
returned. -/
def checkWinner (grid : Grid) : Option Nat :=
  if (cell grid 0 0).isSome ∧ cell grid 0 0 = cell grid 0 1 ∧ cell grid 0 1 = cell grid 0 2 then
    cell grid 0 0
  else if (cell grid 1 0).isSome ∧ cell grid 1 0 = cell grid 1 1 ∧ cell grid 1 1 = cell grid 1 2 then
    cell grid 1 0
  else if (cell grid 2 0).isSome ∧ cell grid 2 0 = cell grid 2 1 ∧ cell grid 2 1 = cell grid 2 2 then
    cell grid 2 0
  else if (cell grid 0 0).isSome ∧ cell grid 0 0 = cell grid 1 0 ∧ cell grid 1 0 = cell grid 2 0 then
    cell grid 0 0
  else if (cell grid 0 1).isSome ∧ cell grid 0 1 = cell grid 1 1 ∧ cell grid 1 1 = cell grid 2 1 then
    cell grid 0 1
  else if (cell grid 0 2).isSome ∧ cell grid 0 2 = cell grid 1 2 ∧ cell grid 1 2 = cell grid 2 2 then
    cell grid 0 2
  else if (cell grid 0 0).isSome ∧ cell grid 0 0 = cell grid 1 1 ∧ cell grid 1 1 = cell grid 2 2 then
    cell grid 0 0
  else if (cell grid 0 2).isSome ∧ cell grid 0 2 = cell grid 1 1 ∧ cell grid 1 1 = cell grid 2 0 then
    cell grid 0 2
  else
    none

/-- Fullness check of the fixed 3-by-3 `isBoardFull` in `gameService.ts`. -/
def isBoardFull (grid : Grid) : Bool :=
  (List.range 3).all fun r => (List.range 3).all fun c => (cell grid r c).isSome

/-- Turn hand-off (`getNextPlayer` in the source): find the mover among the
participants, then the participant holding the other order; the fallbacks to
`participants[0]` mirror the source's defensive branches. -/
def getNextPlayer (ps : List Participant) (currentPlayerId : Nat) : Nat :=
  match ps.find? (fun p => p.playerId == currentPlayerId) with
  | none => (ps.headD default).playerId
  | some currentPlayer =>
    let nextOrder := if currentPlayer.playerOrder = 1 then 2 else 1
    match ps.find? (fun p => p.playerOrder == nextOrder) with
    | some nextPlayer => nextPlayer.playerId
    | none => (ps.headD default).playerId

/-- Stats lookup by player id, first matching row (the source's
`select ... where eq(playerStats.playerId, pid)` read through `[0]` or
`findFirst`). -/
def lookupStats (db : List (Nat × PStats)) (pid : Nat) : Option PStats :=
  (db.find? (fun e => e.1 == pid)).map (fun e => e.2)

/-- Fresh stats row the source inserts when a completed game's participant has
no stats yet (`updatePlayerStats`, insert branch). -/
def initialStats (winnerId : Option Nat) (pid : Nat) : PStats :=
  { gamesPlayed := 1
    gamesWon := if winnerId = some pid then 1 else 0
    totalMoves := 0
    winRate := if winnerId = some pid then 10000 else 0
    efficiency := 0 }

/-- Update of an existing stats row (`updatePlayerStats`, update branch): the
JavaScript floating-point expressions are modelled exactly over `Rat`.
`Math.ceil(finalMoveNumber / 2)` is `(finalMoveNumber + 1) / 2` over `Nat`. -/
def advanceStats (winnerId : Option Nat) (finalMoveNumber : Nat) (pid : Nat) (st : PStats) :
    PStats :=
  let newGamesPlayed := st.gamesPlayed + 1
  let newGamesWon := st.gamesWon + (if winnerId = some pid then 1 else 0)
  let newWinRate := jsRound ((newGamesWon : Rat) / (newGamesPlayed : Rat) * 10000)
  let newEfficiency :=
    if winnerId = some pid ∧ 0 < newGamesWon then
      let movesInThisGame : Nat := (finalMoveNumber + 1) / 2
      jsRound (((st.efficiency : Rat) / 100 * (st.gamesWon : Rat) + (movesInThisGame : Rat)) /
        (newGamesWon : Rat) * 100)
    else st.efficiency
  { st with
    gamesPlayed := newGamesPlayed
    gamesWon := newGamesWon
    winRate := newWinRate
    efficiency := newEfficiency }

/-- SQL `update ... where eq(playerStats.playerId, pid)`: every row keyed by
`pid` is replaced. -/
def updateStatsRow (db : List (Nat × PStats)) (pid : Nat) (st : PStats) :
    List (Nat × PStats) :=
  db.map (fun e => if e.1 == pid then (e.1, st) else e)

/-- Loop body of `updatePlayerStats` for one participant: read the current
row, then insert a first-game row or advance the existing one. -/
def updateOneStat (winnerId : Option Nat) (finalMoveNumber : Nat)
    (db : List (Nat × PStats)) (pid : Nat) : List (Nat × PStats) :=
  match lookupStats db pid with
  | none => db ++ [(pid, initialStats winnerId pid)]
  | some st => updateStatsRow db pid (advanceStats winnerId finalMoveNumber pid st)

/-- Statistics aggregation at game completion (`updatePlayerStats` in the
source): iterate over the completed game's participants, updating each row in
turn. -/
def updatePlayerStats (participantIds : List Nat) (winnerId : Option Nat)
    (finalMoveNumber : Nat) (db : List (Nat × PStats)) : List (Nat × PStats) :=
  participantIds.foldl (updateOneStat winnerId finalMoveNumber) db

/-- Registry read (`getPlayer`): player ids are serial, so id `pid` exists
exactly when `1 ≤ pid ≤ players.length`. -/
def getPlayer (w : World) (playerId : Nat) : Except GameError Player :=
  if 1 ≤ playerId ∧ playerId ≤ w.players.length then
    .ok ⟨playerId, w.players.getD (playerId - 1) ""⟩
  else
    .error ⟨.PLAYER_NOT_FOUND, "Player not found"⟩

/-- JavaScript `String.prototype.trim`, written over the character list:
leading and trailing whitespace dropped. -/
def jsTrim (s : String) : String :=
  String.mk (((s.data.dropWhile Char.isWhitespace).reverse.dropWhile Char.isWhitespace).reverse)

/-- Player creation (`createPlayer`): reject a blank name, insert the player
row with the trimmed name, then insert an all-zero stats row for the fresh
serial id. -/
def createPlayer (w : World) (name : String) : World × Except GameError Player :=
  if (jsTrim name).length = 0 then
    (w, .error ⟨.PLAYER_NOT_FOUND, "Player name is required"⟩)
  else
    let id := w.players.length + 1
    ({ w with
        players := w.players ++ [jsTrim name]
        stats := w.stats ++ [(id, ⟨0, 0, 0, 0, 0⟩)] },
      .ok ⟨id, jsTrim name⟩)

/-- Session creation from the N-by-N variant of the service
(`createGameSession(boardSize = 3)`): board sizes outside `[3, 10]` are
rejected (as the source writes it, with the `INVALID_MOVE` kind); otherwise a
`waiting` session with an all-empty `boardSize`-by-`boardSize` grid and the
schema's column defaults is produced. -/
def createGameSession (boardSize : Int) : Except GameError Game :=
  if boardSize < 3 ∨ 10 < boardSize then
    .error ⟨.INVALID_MOVE, "Board size must be between 3 and 10"⟩
  else
    .ok
      { status := .waiting
        winnerId := none
        isDraw := false
        currentTurn := none
        grid := List.replicate boardSize.toNat (List.replicate boardSize.toNat none)
        participants := []
        moves := []
        completedAt := false }

/-- Join protocol (`joinGameSession`): verify the player, require a `waiting`
session, reject re-joins and full sessions, append the participant with the
next order, and on the second join activate the session with the order-1
participant to move.  The source's unreachable failure to find an order-1
participant surfaces, as in the source's `catch`, after the participant row
was already inserted. -/
def joinGameSession (w : World) (playerId : Nat) : World × Except GameError Game :=
  match getPlayer w playerId with
  | .error e => (w, .error e)
  | .ok _ =>
    let game := w.game
    if game.status ≠ GameStatus.waiting then
      (w, .error ⟨.GAME_FULL, "Game is not accepting new players"⟩)
    else if (game.participants.find? (fun p => p.playerId == playerId)).isSome then
      (w, .error ⟨.ALREADY_JOINED, "Player already joined this game"⟩)
    else if 2 ≤ game.participants.length then
      (w, .error ⟨.GAME_FULL, "Game is full"⟩)
    else
      let playerOrder := game.participants.length + 1
      let parts := game.participants ++ [⟨playerId, playerOrder⟩]
      if playerOrder = 2 then
        match parts.find? (fun p => p.playerOrder == 1) with
        | none =>
          ({ w with game := { game with participants := parts } },
            .error ⟨.GAME_NOT_FOUND, "Failed to join game session"⟩)
        | some firstPlayer =>
          let g1 := { game with
            participants := parts
            status := GameStatus.active
            currentTurn := some firstPlayer.playerId }
          ({ w with game := g1 }, .ok g1)
      else
        let g1 := { game with participants := parts }
        ({ w with game := g1 }, .ok g1)

/-- Move submission (`submitMove` in `gameService.ts`): validate coordinates
against the fixed 3-by-3 board, then status, turn and cell emptiness; on
success write the cell, append the move with the next move number, and either
complete the session (winner or full board, handing off to the statistics
aggregator) or flip the turn.  The returned snapshot is the final state, as
the source's closing `getGameSession` read. -/
def submitMove (w : World) (playerId : Nat) (row col : Int) :
    World × Except GameError Game :=
  if row < 0 ∨ 2 < row ∨ col < 0 ∨ 2 < col then
    (w, .error ⟨.INVALID_MOVE, "Invalid move coordinates"⟩)
  else
    let game := w.game
    if game.status ≠ GameStatus.active then
      (w, .error ⟨.GAME_NOT_ACTIVE, "Game is not active"⟩)
    else if game.currentTurn ≠ some playerId then
      (w, .error ⟨.NOT_YOUR_TURN, "Not your turn"⟩)
    else if cell game.grid row.toNat col.toNat ≠ none then
      (w, .error ⟨.CELL_OCCUPIED, "Cell is already occupied"⟩)
    else
      let moveNumber := game.moves.length + 1
      let newGrid := setCell game.grid row.toNat col.toNat (some playerId)
      let movedGame := { game with
        grid := newGrid
        moves := game.moves ++ [(⟨playerId, row, col, moveNumber⟩ : MoveRec)] }
      let winner := checkWinner newGrid
      let draw : Bool := (winner == none) && isBoardFull newGrid
      if jsTruthy winner || draw then
        let doneGame := { movedGame with
          status := GameStatus.completed
          winnerId := winner
          isDraw := draw
          currentTurn := none
          completedAt := true }
        let stats1 := updatePlayerStats (game.participants.map (fun p => p.playerId))
          winner moveNumber w.stats
        ({ w with game := doneGame, stats := stats1 }, .ok doneGame)
      else
        let nextGame := { movedGame with
          currentTurn := some (getNextPlayer game.participants playerId) }
        ({ w with game := nextGame }, .ok nextGame)

/-- Rescaled stats record returned by `getPlayerStats`: the stored scaled
integers divided by 100. -/
structure StatsView where
  gamesPlayed : Nat
  gamesWon : Nat
  winRate : Rat
  efficiency : Rat
  deriving DecidableEq, Repr

/-- Stats read (`getPlayerStats`): fail when no row exists, otherwise rescale
the stored integers to human units. -/
def getPlayerStats (w : World) (playerId : Nat) : Except GameError StatsView :=
  match lookupStats w.stats playerId with
  | none => .error ⟨.PLAYER_NOT_FOUND, "Player stats not found"⟩
  | some st =>
    .ok ⟨st.gamesPlayed, st.gamesWon, (st.winRate : Rat) / 100, (st.efficiency : Rat) / 100⟩

/-- One request to `submitMove` against the session under study. -/
structure MoveReq where
  playerId : Nat
  row : Int
  col : Int
  deriving DecidableEq, Repr

/-- Sequential application of move requests, each against the state the
previous one left (the serialized per-game critical section of the spec). -/
def applyMoves (w : World) (reqs : List MoveReq) : World :=
  reqs.foldl (fun acc r => (submitMove acc r.playerId r.row r.col).1) w

/-- Scan of one candidate line in the N-by-N `checkWinner` of the service's
variable-board variant: `idx i` is the coordinate of the line's `i`-th cell;
the scan takes the first cell when non-empty and compares the remaining
`size - 1` cells against it, exactly as each loop of the source does. -/
def lineWin (g : Grid) (size : Nat) (idx : Nat → Nat × Nat) : Option Nat :=
  match cell g (idx 0).1 (idx 0).2 with
  | none => none
  | some w =>
    if (List.range' 1 (size - 1)).all (fun i => cell g (idx i).1 (idx i).2 == some w) then
      some w
    else none

/-- Row scan of the N-by-N `checkWinner` (its first loop) at row `r`. -/
def rowWinAt (g : Grid) (size r : Nat) : Option Nat :=
  lineWin g size (fun c => (r, c))

/-- Column scan of the N-by-N `checkWinner` (its second loop) at column `c`. -/
def colWinAt (g : Grid) (size c : Nat) : Option Nat :=
  lineWin g size (fun r => (r, c))

/-- Main-diagonal scan of the N-by-N `checkWinner`. -/
def diagWinAt (g : Grid) (size : Nat) : Option Nat :=
  lineWin g size (fun i => (i, i))

/-- Anti-diagonal scan of the N-by-N `checkWinner`. -/
def antiDiagWinAt (g : Grid) (size : Nat) : Option Nat :=
  lineWin g size (fun i => (i, size - 1 - i))

/-- Winner scan of the N-by-N variant (`checkWinner` in the variable-board
service): every row in order, then every column, then the main diagonal, then
the anti-diagonal, returning the first complete line's value. -/
def checkWinnerN (g : Grid) : Option Nat :=
  let size := g.length
  match (List.range size).findSome? (rowWinAt g size) with
  | some w => some w
  | none =>
    match (List.range size).findSome? (colWinAt g size) with
    | some w => some w
    | none =>
      match diagWinAt g size with
      | some w => some w
      | none => antiDiagWinAt g size

/-- One row of the leaderboard query before rescaling: a `player_stats` row
inner-joined with its `players` row. -/
structure LbRow where
  playerId : Nat
  playerName : String
  st : PStats
  deriving DecidableEq, Repr

/-- One returned leaderboard entry, `winRate` and `efficiency` rescaled. -/
structure LeaderboardEntry where
  playerId : Nat
  playerName : String
  gamesWon : Nat
  winRate : Rat
  efficiency : Rat
  deriving DecidableEq, Repr

/-- Name of the player with serial id `pid`, when it exists. -/
def playerName? (w : World) (pid : Nat) : Option String :=
  if 1 ≤ pid ∧ pid ≤ w.players.length then some (w.players.getD (pid - 1) "")
  else none

/-- The `player_stats`-with-`players` inner join of the leaderboard query. -/
def lbJoin (w : World) : List LbRow :=
  w.stats.filterMap (fun e => (playerName? w e.1).map (fun nm => ⟨e.1, nm, e.2⟩))

/-- Ranking order of the leaderboard query: `gamesWon` descending, ties broken
by `efficiency` ascending (`orderBy(desc(gamesWon), efficiency)`). -/
def lbLe (x y : LbRow) : Prop :=
  y.st.gamesWon < x.st.gamesWon ∨ (x.st.gamesWon = y.st.gamesWon ∧ x.st.efficiency ≤ y.st.efficiency)

instance : DecidableRel lbLe := fun x y => by
  unfold lbLe
  infer_instance

/-- Leaderboard query (`getLeaderboard`): keep stats rows with `gamesWon > 0`,
order by wins descending then efficiency ascending, keep the first 3 rows and
rescale the stored integers.  SQL leaves the order of fully tied rows open;
a deterministic stable sort stands in for it. -/
def getLeaderboard (w : World) : List LeaderboardEntry :=
  (((lbJoin w).filter (fun r => 0 < r.st.gamesWon)).insertionSort lbLe |>.take 3).map
    (fun r => ⟨r.playerId, r.playerName, r.st.gamesWon,
      (r.st.winRate : Rat) / 100, (r.st.efficiency : Rat) / 100⟩)

/-- Spec-side reading of a complete line: every one of the line's `n` cells
is non-empty and holds `p`. -/
def LineAll (g : Grid) (n : Nat) (idx : Nat → Nat × Nat) (p : Nat) : Prop :=
  ∀ i < n, cell g (idx i).1 (idx i).2 = some p

/-- Spec-side winning condition (from the spec's words): some complete row,
column or main diagonal of the `n`-by-`n` grid holds `p` throughout. -/
def WinLine (g : Grid) (n p : Nat) : Prop :=
  (∃ r < n, LineAll g n (fun c => (r, c)) p) ∨
  (∃ c < n, LineAll g n (fun r => (r, c)) p) ∨
  LineAll g n (fun i => (i, i)) p ∨
  LineAll g n (fun i => (i, n - 1 - i)) p

/-- The line scans in the order the N-by-N `checkWinner` runs them: all rows,
then all columns, then the main diagonal, then the anti-diagonal. -/
def lineScans (g : Grid) (n : Nat) : List (Option Nat) :=
  (List.range n).map (rowWinAt g n) ++ (List.range n).map (colWinAt g n) ++
    [diagWinAt g n, antiDiagWinAt g n]

/-- Spec-side win-rate formula, from the spec's words:
`winRate = round(gamesWon / gamesPlayed * 10000)`. -/
def specWinRate (gamesWon gamesPlayed : Nat) : Int :=
  jsRound ((gamesWon : Rat) / (gamesPlayed : Rat) * 10000)

/-- Spec-side efficiency formula for a winner, from the spec's words:
`round(((oldEfficiency / 100 * oldGamesWon) + ceil(finalMoveNumber / 2)) / newGamesWon * 100)`. -/
def specWinnerEfficiency (oldEfficiency : Int) (oldGamesWon finalMoveNumber newGamesWon : Nat) :
    Int :=
  jsRound (((oldEfficiency : Rat) / 100 * (oldGamesWon : Rat) + (((finalMoveNumber + 1) / 2 : Nat) : Rat)) /
    (newGamesWon : Rat) * 100)

/-- Spec-side stats row after one more completed game, from the spec's
formulas, applied to an existing row. -/
def specAdvanced (winnerId : Option Nat) (finalMoveNumber pid : Nat) (st : PStats) : PStats :=
  { gamesPlayed := st.gamesPlayed + 1
    gamesWon := st.gamesWon + (if winnerId = some pid then 1 else 0)
    totalMoves := st.totalMoves
    winRate := specWinRate (st.gamesWon + (if winnerId = some pid then 1 else 0)) (st.gamesPlayed + 1)
    efficiency :=
      if winnerId = some pid then
        specWinnerEfficiency st.efficiency st.gamesWon finalMoveNumber (st.gamesWon + 1)
      else st.efficiency }

/-- Spec-side first-game stats row: the spec's formulas applied to a missing
row read as all zeros ("initialize one with the above as first-game values"). -/
def specFirstGame (winnerId : Option Nat) (finalMoveNumber pid : Nat) : PStats :=
  specAdvanced winnerId finalMoveNumber pid ⟨0, 0, 0, 0, 0⟩

/-- Mover the alternation invariant expects for the game's `k`-th move
(0-based) when `a` holds order 1 and `b` order 2. -/
def expectedMover (a b k : Nat) : Nat :=
  if k % 2 = 0 then a else b

/-- Alternation invariant of one session: the participants are exactly `a`
with order 1 and `b` with order 2, the move log alternates `a, b, a, ...`,
and while the session is active the turn belongs to the next expected mover. -/
def TurnInv (a b : Nat) (g : Game) : Prop :=
  g.participants = [⟨a, 1⟩, ⟨b, 2⟩] ∧
  (∀ i < g.moves.length, (g.moves.getD i default).playerId = expectedMover a b i) ∧
  (g.status = GameStatus.active → g.currentTurn = some (expectedMover a b g.moves.length))

/-- Move-number invariant of one session: the logged move numbers are exactly
`1, 2, ..., k` in order. -/
def MoveNumbersContiguous (g : Game) : Prop :=
  g.moves.map (fun m => m.moveNumber) = List.range' 1 g.moves.length

/-- Ranking relation on returned leaderboard entries: wins descending, ties
broken by rescaled efficiency ascending. -/
def entryRank (x y : LeaderboardEntry) : Prop :=
  y.gamesWon < x.gamesWon ∨ (x.gamesWon = y.gamesWon ∧ x.efficiency ≤ y.efficiency)

/-- An all-empty 3-by-3 grid. -/
def emptyGrid3 : Grid :=
  List.replicate 3 (List.replicate 3 none)

/-- A full 3-by-3 grid with no complete line: a concrete draw position. -/
def drawGrid : Grid :=
  [[some 1, some 2, some 1], [some 2, some 1, some 2], [some 2, some 1, some 2]]

/-- A freshly activated demo session: players 1 and 2 joined in that order,
player 1 to move on an empty board. -/
def demoGame : Game :=
  { status := GameStatus.active
    winnerId := none
    isDraw := false
    currentTurn := some 1
    grid := emptyGrid3
    participants := [⟨1, 1⟩, ⟨2, 2⟩]
    moves := []
    completedAt := false }

/-- Demo store: two registered players, the demo session, no stats rows. -/
def demoWorld : World :=
  { players := ["Alice", "Bob"]
    game := demoGame
    stats := [] }

/-- Demo store with a session still waiting for players. -/
def waitingWorld : World :=
  { players := ["Alice", "Bob"]
    game :=
      { status := GameStatus.waiting
        winnerId := none
        isDraw := false
        currentTurn := none
        grid := emptyGrid3
        participants := []
        moves := []
        completedAt := false }
    stats := [] }

instance : IsTotal LbRow lbLe :=
  ⟨by
    intro x y
    unfold lbLe
    omega⟩

instance : IsTrans LbRow lbLe :=
  ⟨by
    intro x y z hxy hyz
    unfold lbLe at *
    omega⟩

/-- Demo store with two stats rows for the leaderboard query. -/
def lbWorld : World :=
  { players := ["Alice", "Bob"]
    game := demoGame
    stats := [(1, ⟨3, 1, 0, 3333, 500⟩), (2, ⟨3, 2, 0, 6667, 400⟩)] }

theorem lineWin_eq_some_iff (g : Grid) (n : Nat) (idx : Nat → Nat × Nat) (p : Nat)
    (hn : 0 < n) : lineWin g n idx = some p ↔ LineAll g n idx p := by
  unfold lineWin
  constructor
  · intro h
    cases hc : cell g (idx 0).1 (idx 0).2 with
    | none => simp [hc] at h
    | some w =>
      simp only [hc] at h
      by_cases hall : (List.range' 1 (n - 1)).all (fun i => cell g (idx i).1 (idx i).2 == some w)
      · simp only [hall, if_true, Option.some.injEq] at h
        subst h
        intro i hi
        rcases Nat.eq_zero_or_pos i with rfl | hip
        · exact hc
        · have hmem : i ∈ List.range' 1 (n - 1) := by
            rw [List.mem_range']
            exact ⟨i - 1, by omega, by omega⟩
          have := (List.all_eq_true.mp hall) i hmem
          simpa using this
      · simp [hall] at h
  · intro h
    have h0 : cell g (idx 0).1 (idx 0).2 = some p := h 0 hn
    simp only [h0]
    have hall : (List.range' 1 (n - 1)).all (fun i => cell g (idx i).1 (idx i).2 == some p) := by
      rw [List.all_eq_true]
      intro i hmem
      rw [List.mem_range'] at hmem
      obtain ⟨k, hk, rfl⟩ := hmem
      simpa using h (1 + 1 * k) (by omega)
    simp [hall]

theorem findSome?_eq_some_of_mem {α β : Type} (f : α → Option β) (l : List α) (a : α) (b : β)
    (ha : a ∈ l) (hb : f a = some b) : (l.findSome? f).isSome := by
  induction l with
  | nil => cases ha
  | cons x xs ih =>
    rw [List.findSome?_cons]
    cases hx : f x with
    | some v => simp
    | none =>
      rcases List.mem_cons.mp ha with rfl | hmem
      · rw [hx] at hb; cases hb
      · exact ih hmem

theorem exists_of_findSome?_eq_some {α β : Type} {f : α → Option β} {l : List α} {b : β}
    (h : l.findSome? f = some b) : ∃ a ∈ l, f a = some b := by
  induction l with
  | nil => cases h
  | cons x xs ih =>
    rw [List.findSome?_cons] at h
    cases hx : f x with
    | some v =>
      rw [hx] at h
      simp only [Option.some.injEq] at h
      exact ⟨x, List.mem_cons_self x xs, by rw [hx, h]⟩
    | none =>
      rw [hx] at h
      obtain ⟨a, ha, hfa⟩ := ih h
      exact ⟨a, List.mem_cons_of_mem x ha, hfa⟩

theorem checkWinnerN_eq_findSome (g : Grid) :
    checkWinnerN g = (lineScans g g.length).findSome? id := by
  unfold checkWinnerN lineScans
  rw [List.findSome?_append, List.findSome?_append, List.findSome?_map, List.findSome?_map]
  cases hr : (List.range g.length).findSome? (rowWinAt g g.length) with
  | some w => simp [hr, Function.comp_def, Option.or]
  | none =>
    cases hc : (List.range g.length).findSome? (colWinAt g g.length) with
    | some w => simp [hr, hc, Function.comp_def, Option.or]
    | none =>
      cases hd : diagWinAt g g.length with
      | some w => simp [hr, hc, hd, Function.comp_def, Option.or, List.findSome?_cons]
      | none =>
        cases ha : antiDiagWinAt g g.length with
        | some w => simp [hr, hc, hd, ha, Function.comp_def, Option.or, List.findSome?_cons]
        | none => simp [hr, hc, hd, ha, Function.comp_def, Option.or, List.findSome?_cons]

theorem mem_lineScans_iff (g : Grid) (n : Nat) (o : Option Nat) :
    o ∈ lineScans g n ↔
      ((∃ r < n, rowWinAt g n r = o) ∨ (∃ c < n, colWinAt g n c = o) ∨
        diagWinAt g n = o ∨ antiDiagWinAt g n = o) := by
  unfold lineScans
  simp only [List.mem_append, List.mem_map, List.mem_range, List.mem_cons,
    List.mem_singleton, List.not_mem_nil, or_false]
  constructor
  · rintro ((⟨r, hr, hrw⟩ | ⟨c, hc, hcw⟩) | hd | ha)
    · exact Or.inl ⟨r, hr, hrw⟩
    · exact Or.inr (Or.inl ⟨c, hc, hcw⟩)
    · exact Or.inr (Or.inr (Or.inl hd.symm))
    · exact Or.inr (Or.inr (Or.inr ha.symm))
  · rintro (⟨r, hr, hrw⟩ | ⟨c, hc, hcw⟩ | hd | ha)
    · exact Or.inl (Or.inl ⟨r, hr, hrw⟩)
    · exact Or.inl (Or.inr ⟨c, hc, hcw⟩)
    · exact Or.inr (Or.inl hd.symm)
    · exact Or.inr (Or.inr ha.symm)

theorem checkWinnerN_sound (g : Grid) (p : Nat) (hn : 0 < g.length)
    (h : checkWinnerN g = some p) : WinLine g g.length p := by
  rw [checkWinnerN_eq_findSome] at h
  obtain ⟨o, ho, hid⟩ := exists_of_findSome?_eq_some h
  simp only [id] at hid
  subst hid
  rcases (mem_lineScans_iff g g.length (some p)).mp ho with ⟨r, hr, hrw⟩ | ⟨c, hc, hcw⟩ | hd | ha
  · exact Or.inl ⟨r, hr, (lineWin_eq_some_iff g g.length _ p hn).mp hrw⟩
  · exact Or.inr (Or.inl ⟨c, hc, (lineWin_eq_some_iff g g.length _ p hn).mp hcw⟩)
  · exact Or.inr (Or.inr (Or.inl ((lineWin_eq_some_iff g g.length _ p hn).mp hd)))
  · exact Or.inr (Or.inr (Or.inr ((lineWin_eq_some_iff g g.length _ p hn).mp ha)))

theorem checkWinnerN_complete (g : Grid) (p : Nat) (hn : 0 < g.length)
    (h : WinLine g g.length p) : (checkWinnerN g).isSome := by
  rw [checkWinnerN_eq_findSome]
  have step : ∃ o ∈ lineScans g g.length, o = some p := by
    rcases h with ⟨r, hr, hline⟩ | ⟨c, hc, hline⟩ | hline | hline
    · exact ⟨rowWinAt g g.length r,
        (mem_lineScans_iff g g.length _).mpr (Or.inl ⟨r, hr, rfl⟩),
        (lineWin_eq_some_iff g g.length _ p hn).mpr hline⟩
    · exact ⟨colWinAt g g.length c,
        (mem_lineScans_iff g g.length _).mpr (Or.inr (Or.inl ⟨c, hc, rfl⟩)),
        (lineWin_eq_some_iff g g.length _ p hn).mpr hline⟩
    · exact ⟨diagWinAt g g.length,
        (mem_lineScans_iff g g.length _).mpr (Or.inr (Or.inr (Or.inl rfl))),
        (lineWin_eq_some_iff g g.length _ p hn).mpr hline⟩
    · exact ⟨antiDiagWinAt g g.length,
        (mem_lineScans_iff g g.length _).mpr (Or.inr (Or.inr (Or.inr rfl))),
        (lineWin_eq_some_iff g g.length _ p hn).mpr hline⟩
  obtain ⟨o, ho, rfl⟩ := step
  exact findSome?_eq_some_of_mem id (lineScans g g.length) (some p) p ho rfl

/-- C7: the N-by-N `checkWinner` returns a player only when some complete
row, column or main diagonal holds that player throughout; whenever such a
line exists it returns a player; it returns `null` exactly on grids with no
complete line (so on the all-empty grid and on full draw grids); its result
is the first hit of the row-then-column-then-diagonal scan order, and each
individual line scan hits exactly when that line is complete. -/
theorem checkWinnerN_matches_lines (g : Grid) (hn : 0 < g.length) :
    (∀ p, checkWinnerN g = some p → WinLine g g.length p) ∧
    ((∃ p, WinLine g g.length p) → (checkWinnerN g).isSome) ∧
    (checkWinnerN g = none ↔ ∀ p, ¬WinLine g g.length p) ∧
    checkWinnerN g = (lineScans g g.length).findSome? id ∧
    (∀ r p, rowWinAt g g.length r = some p ↔ ∀ c < g.length, cell g r c = some p) ∧
    (∀ c p, colWinAt g g.length c = some p ↔ ∀ r < g.length, cell g r c = some p) ∧
    (∀ p, diagWinAt g g.length = some p ↔ ∀ i < g.length, cell g i i = some p) ∧
    (∀ p, antiDiagWinAt g g.length = some p ↔
      ∀ i < g.length, cell g i (g.length - 1 - i) = some p) := by
  refine ⟨fun p => checkWinnerN_sound g p hn, ?_, ?_, checkWinnerN_eq_findSome g, ?_, ?_, ?_, ?_⟩
  · rintro ⟨p, hp⟩
    exact checkWinnerN_complete g p hn hp
  · constructor
    · intro hnone p hline
      have := checkWinnerN_complete g p hn hline
      rw [hnone] at this
      cases this
    · intro hno
      cases hck : checkWinnerN g with
      | none => rfl
      | some p => exact absurd (checkWinnerN_sound g p hn hck) (hno p)
  · exact fun r p => lineWin_eq_some_iff g g.length (fun c => (r, c)) p hn
  · exact fun c p => lineWin_eq_some_iff g g.length (fun r => (r, c)) p hn
  · exact fun p => lineWin_eq_some_iff g g.length (fun i => (i, i)) p hn
  · exact fun p => lineWin_eq_some_iff g g.length (fun i => (i, g.length - 1 - i)) p hn

/-- Witness for C7 at the concrete full draw grid. -/
theorem checkWinnerN_matches_lines_witness :
    0 < drawGrid.length ∧
    ((∀ p, checkWinnerN drawGrid = some p → WinLine drawGrid 3 p) ∧
      ((∃ p, WinLine drawGrid 3 p) → (checkWinnerN drawGrid).isSome) ∧
      (checkWinnerN drawGrid = none ↔ ∀ p, ¬WinLine drawGrid 3 p) ∧
      checkWinnerN drawGrid = (lineScans drawGrid 3).findSome? id ∧
      (∀ r p, rowWinAt drawGrid 3 r = some p ↔ ∀ c < 3, cell drawGrid r c = some p) ∧
      (∀ c p, colWinAt drawGrid 3 c = some p ↔ ∀ r < 3, cell drawGrid r c = some p) ∧
      (∀ p, diagWinAt drawGrid 3 = some p ↔ ∀ i < 3, cell drawGrid i i = some p) ∧
      (∀ p, antiDiagWinAt drawGrid 3 = some p ↔
        ∀ i < 3, cell drawGrid i (3 - 1 - i) = some p)) :=
  ⟨by decide, checkWinnerN_matches_lines drawGrid (by decide)⟩

/-- C6: `createGameSession` rejects every board size outside `[3, 10]` with
the source's invalid-configuration outcome, and for sizes in range produces a
waiting session over an all-empty size-by-size grid with the column
defaults. -/
theorem createGameSession_valid_range (boardSize : Int) :
    ((boardSize < 3 ∨ 10 < boardSize) →
      createGameSession boardSize =
        .error ⟨.INVALID_MOVE, "Board size must be between 3 and 10"⟩) ∧
    (3 ≤ boardSize → boardSize ≤ 10 →
      ∃ g, createGameSession boardSize = .ok g ∧ g.status = GameStatus.waiting ∧
        g.grid.length = boardSize.toNat ∧
        (∀ gr ∈ g.grid, gr.length = boardSize.toNat ∧ ∀ c ∈ gr, c = none) ∧
        g.participants = [] ∧ g.winnerId = none ∧ g.isDraw = false ∧
        g.currentTurn = none ∧ g.moves = [] ∧ g.completedAt = false) := by
  constructor
  · intro h
    unfold createGameSession
    rw [if_pos h]
  · intro h3 h10
    have hno : ¬(boardSize < 3 ∨ 10 < boardSize) := by omega
    refine ⟨_, by unfold createGameSession; rw [if_neg hno], rfl, by simp, ?_, rfl, rfl, rfl,
      rfl, rfl, rfl⟩
    intro gr hgr
    rw [List.mem_replicate] at hgr
    refine ⟨by rw [hgr.2]; simp, ?_⟩
    intro c hc
    rw [hgr.2] at hc
    exact (List.mem_replicate.mp hc).2

/-- Witness for C6 at board sizes 2 (rejected) and 4 (accepted). -/
theorem createGameSession_valid_range_witness :
    (((2 : Int) < 3 ∨ 10 < (2 : Int)) →
      createGameSession 2 = .error ⟨.INVALID_MOVE, "Board size must be between 3 and 10"⟩) ∧
    ((3 : Int) ≤ 4 → (4 : Int) ≤ 10 →
      ∃ g, createGameSession 4 = .ok g ∧ g.status = GameStatus.waiting ∧
        g.grid.length = (4 : Int).toNat ∧
        (∀ gr ∈ g.grid, gr.length = (4 : Int).toNat ∧ ∀ c ∈ gr, c = none) ∧
        g.participants = [] ∧ g.winnerId = none ∧ g.isDraw = false ∧
        g.currentTurn = none ∧ g.moves = [] ∧ g.completedAt = false) :=
  ⟨(createGameSession_valid_range 2).1, (createGameSession_valid_range 4).2⟩

/-- C2: `submitMove` rejects, in order of checks, out-of-range coordinates
(`INVALID_MOVE`), an inactive session (`GAME_NOT_ACTIVE`, so a completed
session never accepts a move from anyone), a caller out of turn
(`NOT_YOUR_TURN`) and an occupied cell (`CELL_OCCUPIED`); every rejection
returns the store exactly as it was. -/
theorem submitMove_rejections (w : World) (p : Nat) (row col : Int) :
    ((row < 0 ∨ 2 < row ∨ col < 0 ∨ 2 < col) →
      submitMove w p row col = (w, .error ⟨.INVALID_MOVE, "Invalid move coordinates"⟩)) ∧
    (¬(row < 0 ∨ 2 < row ∨ col < 0 ∨ 2 < col) → w.game.status ≠ GameStatus.active →
      submitMove w p row col = (w, .error ⟨.GAME_NOT_ACTIVE, "Game is not active"⟩)) ∧
    (¬(row < 0 ∨ 2 < row ∨ col < 0 ∨ 2 < col) → w.game.status = GameStatus.active →
      w.game.currentTurn ≠ some p →
      submitMove w p row col = (w, .error ⟨.NOT_YOUR_TURN, "Not your turn"⟩)) ∧
    (¬(row < 0 ∨ 2 < row ∨ col < 0 ∨ 2 < col) → w.game.status = GameStatus.active →
      w.game.currentTurn = some p → cell w.game.grid row.toNat col.toNat ≠ none →
      submitMove w p row col = (w, .error ⟨.CELL_OCCUPIED, "Cell is already occupied"⟩)) ∧
    (w.game.status = GameStatus.completed →
      ∀ g, (submitMove w p row col).2 ≠ .ok g) ∧
    (∀ e, (submitMove w p row col).2 = .error e → (submitMove w p row col).1 = w) := by
  refine ⟨?_, ?_, ?_, ?_, ?_, ?_⟩
  · intro h
    unfold submitMove
    rw [if_pos h]
  · intro h hs
    unfold submitMove
    rw [if_neg h, if_pos hs]
  · intro h hs ht
    unfold submitMove
    rw [if_neg h]
    simp [hs, ht]
  · intro h hs ht hc
    unfold submitMove
    rw [if_neg h]
    simp [hs, ht, hc]
  · intro hdone g
    unfold submitMove
    by_cases h : row < 0 ∨ 2 < row ∨ col < 0 ∨ 2 < col
    · rw [if_pos h]
      simp
    · rw [if_neg h]
      have hs : w.game.status ≠ GameStatus.active := by rw [hdone]; intro hh; cases hh
      simp only [ne_eq, hs, not_false_eq_true, if_true]
      simp
  · intro e
    unfold submitMove
    by_cases h : row < 0 ∨ 2 < row ∨ col < 0 ∨ 2 < col
    · rw [if_pos h]
      intro
      rfl
    · rw [if_neg h]
      by_cases hs : w.game.status ≠ GameStatus.active
      · rw [if_pos hs]
        intro
        rfl
      · rw [if_neg hs]
        by_cases ht : w.game.currentTurn ≠ some p
        · rw [if_pos ht]
          intro
          rfl
        · rw [if_neg ht]
          by_cases hc : cell w.game.grid row.toNat col.toNat ≠ none
          · rw [if_pos hc]
            intro
            rfl
          · rw [if_neg hc]
            by_cases hw : jsTruthy (checkWinner (setCell w.game.grid row.toNat col.toNat (some p)))
                || ((checkWinner (setCell w.game.grid row.toNat col.toNat (some p)) == none)
                  && isBoardFull (setCell w.game.grid row.toNat col.toNat (some p)))
            · rw [if_pos hw]
              intro hcontra
              cases hcontra
            · rw [if_neg hw]
              intro hcontra
              cases hcontra

/-- Witness for C2: an out-of-range move and an out-of-turn move against the
demo session, both rejected without touching the store. -/
theorem submitMove_rejections_witness :
    submitMove demoWorld 1 5 0 = (demoWorld, .error ⟨.INVALID_MOVE, "Invalid move coordinates"⟩) ∧
    submitMove demoWorld 2 0 0 = (demoWorld, .error ⟨.NOT_YOUR_TURN, "Not your turn"⟩) :=
  ⟨(submitMove_rejections demoWorld 1 5 0).1 (by decide),
    (submitMove_rejections demoWorld 2 0 0).2.2.1 (by decide) (by decide) (by decide)⟩

theorem getD_eq_getElem_of_lt {α : Type} (l : List α) (d : α) (n : Nat) (h : n < l.length) :
    l.getD n d = l[n] := by
  rw [List.getD_eq_getElem?_getD, List.getElem?_eq_getElem h]
  rfl

theorem cell_setCell_or (g : Grid) (r c : Nat) (v : Option Nat) (r' c' : Nat) :
    cell (setCell g r c v) r' c' = v ∨ cell (setCell g r c v) r' c' = cell g r' c' := by
  by_cases hr : r = r'
  · subst hr
    by_cases hlen : r < g.length
    · have hrow : List.getD g r [] = g[r] := getD_eq_getElem_of_lt g [] r hlen
      by_cases hc : c = c'
      · subst hc
        by_cases hlc : c < (g.getD r []).length
        · left
          rw [hrow] at hlc
          simp [cell, setCell, List.getD_eq_getElem?_getD, List.getElem?_set, List.get_eq_getElem, hlen, hrow, hlc]
        · right
          rw [hrow] at hlc
          have hnone : (g[r])[c]? = none := by
            rw [List.getElem?_eq_none_iff]
            omega
          simp [cell, setCell, List.getD_eq_getElem?_getD, List.getElem?_set, List.get_eq_getElem, hlen, hrow, hlc,
            hnone]
      · right
        simp [cell, setCell, List.getD_eq_getElem?_getD, List.getElem?_set, hlen, hc]
    · right
      have hg : g[r]? = none := by
        rw [List.getElem?_eq_none_iff]
        omega
      simp [cell, setCell, List.getD_eq_getElem?_getD, List.getElem?_set, hlen, hg]
  · right
    simp [cell, setCell, List.getD_eq_getElem?_getD, List.getElem?_set, hr]

theorem cell_setCell_self (g : Grid) (r c : Nat) (v : Option Nat)
    (hr : r < g.length) (hc : c < (g.getD r []).length) :
    cell (setCell g r c v) r c = v := by
  have hrow : List.getD g r [] = g[r] := getD_eq_getElem_of_lt g [] r hr
  rw [hrow] at hc
  simp [cell, setCell, List.getD_eq_getElem?_getD, List.getElem?_set, List.get_eq_getElem, hr, hrow, hc]

theorem checkWinner_mem (g : Grid) (q : Nat) (h : checkWinner g = some q) :
    ∃ r < 3, ∃ c < 3, cell g r c = some q := by
  unfold checkWinner at h
  split_ifs at h
  · exact ⟨0, by norm_num, 0, by norm_num, h⟩
  · exact ⟨1, by norm_num, 0, by norm_num, h⟩
  · exact ⟨2, by norm_num, 0, by norm_num, h⟩
  · exact ⟨0, by norm_num, 0, by norm_num, h⟩
  · exact ⟨0, by norm_num, 1, by norm_num, h⟩
  · exact ⟨0, by norm_num, 2, by norm_num, h⟩
  · exact ⟨0, by norm_num, 0, by norm_num, h⟩
  · exact ⟨0, by norm_num, 2, by norm_num, h⟩

theorem getNextPlayer_pair (a b : Nat) (hab : a ≠ b) :
    getNextPlayer [⟨a, 1⟩, ⟨b, 2⟩] a = b ∧ getNextPlayer [⟨a, 1⟩, ⟨b, 2⟩] b = a := by
  have h1 : (a == b) = false := beq_eq_false_iff_ne.mpr hab
  have h2 : (b == a) = false := beq_eq_false_iff_ne.mpr (Ne.symm hab)
  constructor <;> simp [getNextPlayer, List.find?, h1, h2]

/-- C1: a legal move by the player on turn writes that player's id into the
chosen empty cell, appends the move with the next move number, and then
either completes the session (winner found: that winner recorded, no draw;
or full board: draw recorded) clearing the turn and setting the completion
timestamp, or hands the turn to the other participant; the returned snapshot
is the updated session. -/
theorem submitMove_legal (w : World) (a b p : Nat) (row col : Int)
    (hparts : w.game.participants = [⟨a, 1⟩, ⟨b, 2⟩])
    (hab : a ≠ b) (ha : a ≠ 0) (hb : b ≠ 0)
    (hp : p = a ∨ p = b)
    (hactive : w.game.status = GameStatus.active)
    (hturn : w.game.currentTurn = some p)
    (hrow : 0 ≤ row ∧ row ≤ 2) (hcol : 0 ≤ col ∧ col ≤ 2)
    (hempty : cell w.game.grid row.toNat col.toNat = none)
    (hcells : ∀ r < 3, ∀ c < 3, cell w.game.grid r c = none ∨
      cell w.game.grid r c = some a ∨ cell w.game.grid r c = some b)
    (hlen : w.game.grid.length = 3)
    (hrlen : ∀ gr ∈ w.game.grid, gr.length = 3) :
    (submitMove w p row col).2 = .ok (submitMove w p row col).1.game ∧
    (submitMove w p row col).1.game.grid = setCell w.game.grid row.toNat col.toNat (some p) ∧
    cell (submitMove w p row col).1.game.grid row.toNat col.toNat = some p ∧
    (submitMove w p row col).1.game.moves =
      w.game.moves ++ [⟨p, row, col, w.game.moves.length + 1⟩] ∧
    (∀ q, checkWinner (setCell w.game.grid row.toNat col.toNat (some p)) = some q →
      (submitMove w p row col).1.game.status = GameStatus.completed ∧
      (submitMove w p row col).1.game.winnerId = some q ∧
      (submitMove w p row col).1.game.isDraw = false ∧
      (submitMove w p row col).1.game.currentTurn = none ∧
      (submitMove w p row col).1.game.completedAt = true) ∧
    (checkWinner (setCell w.game.grid row.toNat col.toNat (some p)) = none →
      isBoardFull (setCell w.game.grid row.toNat col.toNat (some p)) = true →
      (submitMove w p row col).1.game.status = GameStatus.completed ∧
      (submitMove w p row col).1.game.winnerId = none ∧
      (submitMove w p row col).1.game.isDraw = true ∧
      (submitMove w p row col).1.game.currentTurn = none ∧
      (submitMove w p row col).1.game.completedAt = true) ∧
    (checkWinner (setCell w.game.grid row.toNat col.toNat (some p)) = none →
      isBoardFull (setCell w.game.grid row.toNat col.toNat (some p)) = false →
      (submitMove w p row col).1.game.status = GameStatus.active ∧
      (submitMove w p row col).1.game.currentTurn = some (if p = a then b else a)) := by
  have hcond : ¬(row < 0 ∨ 2 < row ∨ col < 0 ∨ 2 < col) := by omega
  have hstat : ¬(w.game.status ≠ GameStatus.active) := by rw [hactive]; simp
  have hturn2 : ¬(w.game.currentTurn ≠ some p) := by rw [hturn]; simp
  have hemp : ¬(cell w.game.grid row.toNat col.toNat ≠ none) := by rw [hempty]; simp
  have hrn : row.toNat < w.game.grid.length := by omega
  have hcn : col.toNat < (w.game.grid.getD row.toNat []).length := by
    have hmem : w.game.grid.getD row.toNat [] ∈ w.game.grid := by
      rw [getD_eq_getElem_of_lt w.game.grid [] row.toNat hrn]
      exact List.getElem_mem hrn
    rw [hrlen _ hmem]
    omega
  have hset : cell (setCell w.game.grid row.toNat col.toNat (some p)) row.toNat col.toNat
      = some p := cell_setCell_self w.game.grid row.toNat col.toNat (some p) hrn hcn
  have hwnz : ∀ q, checkWinner (setCell w.game.grid row.toNat col.toNat (some p)) = some q →
      q ≠ 0 := by
    intro q hq
    obtain ⟨r, hr3, c, hc3, hcellq⟩ := checkWinner_mem _ q hq
    rcases cell_setCell_or w.game.grid row.toNat col.toNat (some p) r c with h | h
    · rw [hcellq] at h
      injection h with h
      rcases hp with rfl | rfl
      · rw [h]; exact ha
      · rw [h]; exact hb
    · rw [hcellq] at h
      have hold : cell w.game.grid r c = some q := h.symm
      rcases hcells r hr3 c hc3 with h0 | hA | hB
      · rw [h0] at hold
        cases hold
      · rw [hA] at hold
        injection hold with he
        exact he ▸ ha
      · rw [hB] at hold
        injection hold with he
        exact he ▸ hb
  cases hwin : checkWinner (setCell w.game.grid row.toNat col.toNat (some p)) with
  | some q =>
    have hq0 : q ≠ 0 := hwnz q hwin
    have hsm : submitMove w p row col =
        ({ w with
            game := { w.game with
              status := GameStatus.completed
              winnerId := some q
              isDraw := false
              currentTurn := none
              grid := setCell w.game.grid row.toNat col.toNat (some p)
              moves := w.game.moves ++
                [(⟨p, row, col, w.game.moves.length + 1⟩ : MoveRec)]
              completedAt := true }
            stats := updatePlayerStats (w.game.participants.map (fun x => x.playerId))
              (some q) (w.game.moves.length + 1) w.stats },
          .ok { w.game with
            status := GameStatus.completed
            winnerId := some q
            isDraw := false
            currentTurn := none
            grid := setCell w.game.grid row.toNat col.toNat (some p)
            moves := w.game.moves ++ [(⟨p, row, col, w.game.moves.length + 1⟩ : MoveRec)]
            completedAt := true }) := by
      unfold submitMove
      rw [if_neg hcond, if_neg hstat, if_neg hturn2, if_neg hemp]
      simp only [hwin, jsTruthy]
      have : (q != 0) = true := by simpa using hq0
      simp [this]
    rw [hsm]
    refine ⟨rfl, rfl, hset, rfl, ?_, ?_, ?_⟩
    · intro q' hq'
      injection hq' with hq'
      subst hq'
      exact ⟨rfl, rfl, rfl, rfl, rfl⟩
    · intro hcontra
      cases hcontra
    · intro hcontra
      cases hcontra
  | none =>
    by_cases hfull : isBoardFull (setCell w.game.grid row.toNat col.toNat (some p)) = true
    · have hsm : submitMove w p row col =
          ({ w with
              game := { w.game with
                status := GameStatus.completed
                winnerId := none
                isDraw := true
                currentTurn := none
                grid := setCell w.game.grid row.toNat col.toNat (some p)
                moves := w.game.moves ++ [(⟨p, row, col, w.game.moves.length + 1⟩ : MoveRec)]
                completedAt := true }
              stats := updatePlayerStats (w.game.participants.map (fun x => x.playerId))
                none (w.game.moves.length + 1) w.stats },
            .ok { w.game with
              status := GameStatus.completed
              winnerId := none
              isDraw := true
              currentTurn := none
              grid := setCell w.game.grid row.toNat col.toNat (some p)
              moves := w.game.moves ++ [(⟨p, row, col, w.game.moves.length + 1⟩ : MoveRec)]
              completedAt := true }) := by
        unfold submitMove
        rw [if_neg hcond, if_neg hstat, if_neg hturn2, if_neg hemp]
        simp [hwin, hfull, jsTruthy]
      rw [hsm]
      refine ⟨rfl, rfl, hset, rfl, ?_, ?_, ?_⟩
      · intro q' hq'
        cases hq'
      · intro _ _
        exact ⟨rfl, rfl, rfl, rfl, rfl⟩
      · intro _ hcontra
        rw [hfull] at hcontra
        cases hcontra
    · have hfull2 : isBoardFull (setCell w.game.grid row.toNat col.toNat (some p)) = false := by
        simpa using hfull
      have hsm : submitMove w p row col =
          ({ w with
              game := { w.game with
                currentTurn := some (getNextPlayer w.game.participants p)
                grid := setCell w.game.grid row.toNat col.toNat (some p)
                moves := w.game.moves ++
                  [(⟨p, row, col, w.game.moves.length + 1⟩ : MoveRec)] } },
            .ok { w.game with
              currentTurn := some (getNextPlayer w.game.participants p)
              grid := setCell w.game.grid row.toNat col.toNat (some p)
              moves := w.game.moves ++
                [(⟨p, row, col, w.game.moves.length + 1⟩ : MoveRec)] }) := by
        unfold submitMove
        rw [if_neg hcond, if_neg hstat, if_neg hturn2, if_neg hemp]
        simp [hwin, hfull2, jsTruthy]
      rw [hsm]
      refine ⟨rfl, rfl, hset, rfl, ?_, ?_, ?_⟩
      · intro q' hq'
        cases hq'
      · intro _ hcontra
        rw [hfull2] at hcontra
        cases hcontra
      · intro _ _
        refine ⟨hactive, ?_⟩
        rw [hparts]
        rcases hp with rfl | rfl
        · rw [(getNextPlayer_pair p b hab).1, if_pos rfl]
        · rw [(getNextPlayer_pair a p hab).2, if_neg (Ne.symm hab)]

/-- Witness for C1: player 1 legally plays the empty corner of the fresh demo
session. -/
theorem submitMove_legal_witness :
    (submitMove demoWorld 1 0 0).2 = .ok (submitMove demoWorld 1 0 0).1.game ∧
    (submitMove demoWorld 1 0 0).1.game.grid = setCell demoWorld.game.grid 0 0 (some 1) ∧
    cell (submitMove demoWorld 1 0 0).1.game.grid 0 0 = some 1 ∧
    (submitMove demoWorld 1 0 0).1.game.moves =
      demoWorld.game.moves ++ [⟨1, 0, 0, demoWorld.game.moves.length + 1⟩] ∧
    (∀ q, checkWinner (setCell demoWorld.game.grid 0 0 (some 1)) = some q →
      (submitMove demoWorld 1 0 0).1.game.status = GameStatus.completed ∧
      (submitMove demoWorld 1 0 0).1.game.winnerId = some q ∧
      (submitMove demoWorld 1 0 0).1.game.isDraw = false ∧
      (submitMove demoWorld 1 0 0).1.game.currentTurn = none ∧
      (submitMove demoWorld 1 0 0).1.game.completedAt = true) ∧
    (checkWinner (setCell demoWorld.game.grid 0 0 (some 1)) = none →
      isBoardFull (setCell demoWorld.game.grid 0 0 (some 1)) = true →
      (submitMove demoWorld 1 0 0).1.game.status = GameStatus.completed ∧
      (submitMove demoWorld 1 0 0).1.game.winnerId = none ∧
      (submitMove demoWorld 1 0 0).1.game.isDraw = true ∧
      (submitMove demoWorld 1 0 0).1.game.currentTurn = none ∧
      (submitMove demoWorld 1 0 0).1.game.completedAt = true) ∧
    (checkWinner (setCell demoWorld.game.grid 0 0 (some 1)) = none →
      isBoardFull (setCell demoWorld.game.grid 0 0 (some 1)) = false →
      (submitMove demoWorld 1 0 0).1.game.status = GameStatus.active ∧
      (submitMove demoWorld 1 0 0).1.game.currentTurn = some (if 1 = 1 then 2 else 1)) :=
  submitMove_legal demoWorld 1 2 1 0 0 rfl (by decide) (by decide) (by decide) (Or.inl rfl)
    rfl rfl (by decide) (by decide) (by decide) (by decide) (by decide) (by decide)

theorem contiguous_append (g : Game) (hw : MoveNumbersContiguous g) (p : Nat) (row col : Int) :
    (g.moves ++ [(⟨p, row, col, g.moves.length + 1⟩ : MoveRec)]).map (fun m => m.moveNumber) =
      List.range' 1 (g.moves ++ [(⟨p, row, col, g.moves.length + 1⟩ : MoveRec)]).length := by
  unfold MoveNumbersContiguous at hw
  rw [List.map_append, List.length_append, hw]
  simp [List.range'_concat, Nat.add_comm]

theorem submitMove_preserves_contiguous (w : World) (p : Nat) (row col : Int)
    (hw : MoveNumbersContiguous w.game) :
    MoveNumbersContiguous (submitMove w p row col).1.game := by
  unfold submitMove
  by_cases h1 : row < 0 ∨ 2 < row ∨ col < 0 ∨ 2 < col
  · rw [if_pos h1]; exact hw
  · rw [if_neg h1]
    by_cases h2 : w.game.status ≠ GameStatus.active
    · rw [if_pos h2]; exact hw
    · rw [if_neg h2]
      by_cases h3 : w.game.currentTurn ≠ some p
      · rw [if_pos h3]; exact hw
      · rw [if_neg h3]
        by_cases h4 : cell w.game.grid row.toNat col.toNat ≠ none
        · rw [if_pos h4]; exact hw
        · rw [if_neg h4]
          dsimp only
          split
          · exact contiguous_append w.game hw p row col
          · exact contiguous_append w.game hw p row col

theorem applyMoves_contiguous (w : World) (hw : MoveNumbersContiguous w.game)
    (reqs : List MoveReq) : MoveNumbersContiguous ((applyMoves w reqs).game) := by
  induction reqs generalizing w with
  | nil => exact hw
  | cons r rs ih =>
    exact ih ((submitMove w r.playerId r.row r.col).1)
      (submitMove_preserves_contiguous w r.playerId r.row r.col hw)

/-- C3: starting from a session whose logged move numbers are `1..k`, any
sequence of requests leaves them contiguous `1..k'` (gap- and
duplicate-free), and each successful `submitMove` appends a move numbered
one past the count of previously recorded moves. -/
theorem moveNumbers_contiguous_spec (w : World) (reqs : List MoveReq)
    (hw : MoveNumbersContiguous w.game) :
    MoveNumbersContiguous ((applyMoves w reqs).game) ∧
    (∀ (u : World) (p : Nat) (row col : Int) (g : Game),
      (submitMove u p row col).2 = .ok g →
      g.moves = u.game.moves ++ [⟨p, row, col, u.game.moves.length + 1⟩]) := by
  refine ⟨applyMoves_contiguous w hw reqs, ?_⟩
  intro u p row col g hok
  unfold submitMove at hok
  by_cases h1 : row < 0 ∨ 2 < row ∨ col < 0 ∨ 2 < col
  · rw [if_pos h1] at hok
    simp at hok
  · rw [if_neg h1] at hok
    by_cases h2 : u.game.status ≠ GameStatus.active
    · rw [if_pos h2] at hok
      simp at hok
    · rw [if_neg h2] at hok
      by_cases h3 : u.game.currentTurn ≠ some p
      · rw [if_pos h3] at hok
        simp at hok
      · rw [if_neg h3] at hok
        by_cases h4 : cell u.game.grid row.toNat col.toNat ≠ none
        · rw [if_pos h4] at hok
          simp at hok
        · rw [if_neg h4] at hok
          dsimp only at hok
          split at hok
          · simp only [Except.ok.injEq] at hok
            subst hok
            rfl
          · simp only [Except.ok.injEq] at hok
            subst hok
            rfl

/-- Witness for C3: two legal opening moves against the demo session. -/
theorem moveNumbers_contiguous_spec_witness :
    MoveNumbersContiguous ((applyMoves demoWorld [⟨1, 0, 0⟩, ⟨2, 1, 1⟩]).game) ∧
    (∀ (u : World) (p : Nat) (row col : Int) (g : Game),
      (submitMove u p row col).2 = .ok g →
      g.moves = u.game.moves ++ [⟨p, row, col, u.game.moves.length + 1⟩]) :=
  moveNumbers_contiguous_spec demoWorld [⟨1, 0, 0⟩, ⟨2, 1, 1⟩] rfl

theorem getNext_expected (a b : Nat) (hab : a ≠ b) (k : Nat) :
    getNextPlayer [⟨a, 1⟩, ⟨b, 2⟩] (expectedMover a b k) = expectedMover a b (k + 1) := by
  unfold expectedMover
  by_cases hk : k % 2 = 0
  · rw [if_pos hk, if_neg (by omega : ¬(k + 1) % 2 = 0)]
    exact (getNextPlayer_pair a b hab).1
  · rw [if_neg hk, if_pos (by omega : (k + 1) % 2 = 0)]
    exact (getNextPlayer_pair a b hab).2

theorem moves_append_expected (a b : Nat) (ms : List MoveRec) (m : MoveRec)
    (hms : ∀ i < ms.length, (ms.getD i default).playerId = expectedMover a b i)
    (hm : m.playerId = expectedMover a b ms.length) :
    ∀ i < (ms ++ [m]).length, ((ms ++ [m]).getD i default).playerId = expectedMover a b i := by
  intro i hi
  rw [List.length_append] at hi
  by_cases hlt : i < ms.length
  · rw [List.getD_eq_getElem?_getD, List.getElem?_append_left hlt, ← List.getD_eq_getElem?_getD]
    exact hms i hlt
  · have hieq : i = ms.length := by simp at hi; omega
    subst hieq
    rw [List.getD_eq_getElem?_getD, List.getElem?_concat_length]
    exact hm

theorem submitMove_preserves_turnInv (a b : Nat) (hab : a ≠ b) (w : World)
    (p : Nat) (row col : Int) (hw : TurnInv a b w.game) :
    TurnInv a b (submitMove w p row col).1.game := by
  obtain ⟨hparts, hmoves, hturn⟩ := hw
  unfold submitMove
  by_cases h1 : row < 0 ∨ 2 < row ∨ col < 0 ∨ 2 < col
  · rw [if_pos h1]; exact ⟨hparts, hmoves, hturn⟩
  · rw [if_neg h1]
    by_cases h2 : w.game.status ≠ GameStatus.active
    · rw [if_pos h2]; exact ⟨hparts, hmoves, hturn⟩
    · rw [if_neg h2]
      by_cases h3 : w.game.currentTurn ≠ some p
      · rw [if_pos h3]; exact ⟨hparts, hmoves, hturn⟩
      · rw [if_neg h3]
        by_cases h4 : cell w.game.grid row.toNat col.toNat ≠ none
        · rw [if_pos h4]; exact ⟨hparts, hmoves, hturn⟩
        · rw [if_neg h4]
          have hst : w.game.status = GameStatus.active := not_not.mp h2
          have hct : w.game.currentTurn = some p := not_not.mp h3
          have hpe : p = expectedMover a b w.game.moves.length := by
            have := hturn hst
            rw [hct] at this
            injection this
          have hms' := moves_append_expected a b w.game.moves
            ⟨p, row, col, w.game.moves.length + 1⟩ hmoves hpe
          dsimp only
          split
          · exact ⟨hparts, hms', fun hcontra => by cases hcontra⟩
          · refine ⟨hparts, hms', fun _ => ?_⟩
            show some (getNextPlayer w.game.participants p) = _
            have hlen : (w.game.moves ++
                [(⟨p, row, col, w.game.moves.length + 1⟩ : MoveRec)]).length =
                w.game.moves.length + 1 := by simp
            rw [hlen, hparts]
            conv_lhs => rw [hpe]
            rw [getNext_expected a b hab]

theorem applyMoves_turnInv (a b : Nat) (hab : a ≠ b) (w : World)
    (hw : TurnInv a b w.game) (reqs : List MoveReq) :
    TurnInv a b ((applyMoves w reqs).game) := by
  induction reqs generalizing w with
  | nil => exact hw
  | cons r rs ih =>
    exact ih ((submitMove w r.playerId r.row r.col).1)
      (submitMove_preserves_turnInv a b hab w r.playerId r.row r.col hw)

/-- C4: from any state satisfying the alternation invariant (in particular
the state reached when the second player joins), every request sequence
preserves it: while the session is active the turn belongs to one of the two
participants, and consecutive logged moves always belong to different
participants. -/
theorem turn_alternation_spec (a b : Nat) (hab : a ≠ b) (w : World)
    (hw : TurnInv a b w.game) (reqs : List MoveReq) :
    TurnInv a b ((applyMoves w reqs).game) ∧
    ((applyMoves w reqs).game.status = GameStatus.active →
      (applyMoves w reqs).game.currentTurn = some a ∨
      (applyMoves w reqs).game.currentTurn = some b) ∧
    (∀ i, i + 1 < (applyMoves w reqs).game.moves.length →
      ((applyMoves w reqs).game.moves.getD i default).playerId ≠
        ((applyMoves w reqs).game.moves.getD (i + 1) default).playerId) := by
  have hinv := applyMoves_turnInv a b hab w hw reqs
  refine ⟨hinv, ?_, ?_⟩
  · intro hact
    rw [hinv.2.2 hact]
    unfold expectedMover
    by_cases h : (applyMoves w reqs).game.moves.length % 2 = 0
    · rw [if_pos h]; exact Or.inl rfl
    · rw [if_neg h]; exact Or.inr rfl
  · intro i hi
    rw [hinv.2.1 i (by omega), hinv.2.1 (i + 1) hi]
    unfold expectedMover
    by_cases h : i % 2 = 0
    · rw [if_pos h, if_neg (by omega : ¬(i + 1) % 2 = 0)]
      exact hab
    · rw [if_neg h, if_pos (by omega : (i + 1) % 2 = 0)]
      exact Ne.symm hab

/-- Witness for C4: three legal moves against the demo session. -/
theorem turn_alternation_spec_witness :
    TurnInv 1 2 ((applyMoves demoWorld [⟨1, 0, 0⟩, ⟨2, 1, 1⟩, ⟨1, 2, 2⟩]).game) ∧
    ((applyMoves demoWorld [⟨1, 0, 0⟩, ⟨2, 1, 1⟩, ⟨1, 2, 2⟩]).game.status =
        GameStatus.active →
      (applyMoves demoWorld [⟨1, 0, 0⟩, ⟨2, 1, 1⟩, ⟨1, 2, 2⟩]).game.currentTurn = some 1 ∨
      (applyMoves demoWorld [⟨1, 0, 0⟩, ⟨2, 1, 1⟩, ⟨1, 2, 2⟩]).game.currentTurn = some 2) ∧
    (∀ i, i + 1 < (applyMoves demoWorld [⟨1, 0, 0⟩, ⟨2, 1, 1⟩, ⟨1, 2, 2⟩]).game.moves.length →
      ((applyMoves demoWorld [⟨1, 0, 0⟩, ⟨2, 1, 1⟩, ⟨1, 2, 2⟩]).game.moves.getD i
          default).playerId ≠
        ((applyMoves demoWorld [⟨1, 0, 0⟩, ⟨2, 1, 1⟩, ⟨1, 2, 2⟩]).game.moves.getD (i + 1)
          default).playerId) :=
  turn_alternation_spec 1 2 (by decide) demoWorld ⟨rfl, by decide, by decide⟩
    [⟨1, 0, 0⟩, ⟨2, 1, 1⟩, ⟨1, 2, 2⟩]

/-- C5: with the joining player registered, `joinGameSession` rejects a
non-waiting session (the source's "not accepting new players" outcome), a
repeated join and a full session, in that order and without mutating the
store; a first join records order 1 keeping the session waiting; a second
join records order 2, activates the session and hands the turn to the
order-1 participant. -/
theorem joinGame_spec (w : World) (pid : Nat)
    (hpl : 1 ≤ pid ∧ pid ≤ w.players.length) :
    (w.game.status ≠ GameStatus.waiting →
      joinGameSession w pid = (w, .error ⟨.GAME_FULL, "Game is not accepting new players"⟩)) ∧
    (w.game.status = GameStatus.waiting →
      (∃ pt ∈ w.game.participants, pt.playerId = pid) →
      joinGameSession w pid = (w, .error ⟨.ALREADY_JOINED, "Player already joined this game"⟩)) ∧
    (w.game.status = GameStatus.waiting →
      (∀ pt ∈ w.game.participants, pt.playerId ≠ pid) →
      2 ≤ w.game.participants.length →
      joinGameSession w pid = (w, .error ⟨.GAME_FULL, "Game is full"⟩)) ∧
    (w.game.status = GameStatus.waiting →
      w.game.participants = [] →
      joinGameSession w pid =
        ({ w with game := { w.game with participants := [⟨pid, 1⟩] } },
          .ok { w.game with participants := [⟨pid, 1⟩] })) ∧
    (∀ q, w.game.status = GameStatus.waiting →
      w.game.participants = [⟨q, 1⟩] →
      q ≠ pid →
      joinGameSession w pid =
        ({ w with game := { w.game with
            participants := [⟨q, 1⟩, ⟨pid, 2⟩]
            status := GameStatus.active
            currentTurn := some q } },
          .ok { w.game with
            participants := [⟨q, 1⟩, ⟨pid, 2⟩]
            status := GameStatus.active
            currentTurn := some q })) := by
  have hget : getPlayer w pid = .ok ⟨pid, w.players.getD (pid - 1) ""⟩ := by
    unfold getPlayer
    rw [if_pos hpl]
  refine ⟨?_, ?_, ?_, ?_, ?_⟩
  · intro hst
    unfold joinGameSession
    rw [hget]
    exact if_pos hst
  · intro hst hmem
    have hfind : (w.game.participants.find? (fun pt => pt.playerId == pid)).isSome = true := by
      rw [List.find?_isSome]
      obtain ⟨pt, hpt, hpe⟩ := hmem
      exact ⟨pt, hpt, by simpa using hpe⟩
    unfold joinGameSession
    rw [hget]
    simp [hst, hfind]
  · intro hst hnone hfull
    have hfind : w.game.participants.find? (fun pt => pt.playerId == pid) = none := by
      rw [List.find?_eq_none]
      intro pt hpt
      simpa using hnone pt hpt
    unfold joinGameSession
    rw [hget]
    simp [hst, hfind, hfull]
  · intro hst hparts
    unfold joinGameSession
    rw [hget]
    simp [hst, hparts, List.find?]
  · intro q hst hparts hq
    have hqp : (q == pid) = false := beq_eq_false_iff_ne.mpr hq
    unfold joinGameSession
    rw [hget]
    simp [hst, hparts, List.find?, hqp]

/-- Witness for C5: player 1 makes the first join of the waiting demo
session and gets order 1 with the session still waiting. -/
theorem joinGame_spec_witness :
    waitingWorld.game.status = GameStatus.waiting ∧
    joinGameSession waitingWorld 1 =
      ({ waitingWorld with
          game := { waitingWorld.game with participants := [⟨1, 1⟩] } },
        .ok { waitingWorld.game with participants := [⟨1, 1⟩] }) :=
  ⟨rfl, (joinGame_spec waitingWorld 1 (by decide)).2.2.2.1 rfl rfl⟩

theorem lookupStats_eq_none_iff (db : List (Nat × PStats)) (pid : Nat) :
    lookupStats db pid = none ↔ db.find? (fun e => e.1 == pid) = none := by
  unfold lookupStats
  cases db.find? (fun e => e.1 == pid) <;> simp

theorem lookupStats_append_of_none (db : List (Nat × PStats)) (pid : Nat) (st : PStats)
    (h : lookupStats db pid = none) :
    lookupStats (db ++ [(pid, st)]) pid = some st := by
  unfold lookupStats
  rw [List.find?_append, (lookupStats_eq_none_iff db pid).mp h]
  simp [List.find?]

theorem lookupStats_append_other (db : List (Nat × PStats)) (pid c : Nat) (st : PStats)
    (hc : c ≠ pid) :
    lookupStats (db ++ [(c, st)]) pid = lookupStats db pid := by
  unfold lookupStats
  rw [List.find?_append]
  have : List.find? (fun e => e.1 == pid) [(c, st)] = none := by
    simp [List.find?, beq_eq_false_iff_ne.mpr hc]
  rw [this, Option.or_none]

theorem lookupStats_cons (e : Nat × PStats) (es : List (Nat × PStats)) (pid : Nat) :
    lookupStats (e :: es) pid = if e.1 = pid then some e.2 else lookupStats es pid := by
  unfold lookupStats
  rw [List.find?_cons]
  by_cases h : e.1 = pid
  · have hb : (e.1 == pid) = true := by simpa using h
    simp [hb, h]
  · have hb : (e.1 == pid) = false := by simpa using h
    simp [hb, h]

theorem lookupStats_updateRow_self (db : List (Nat × PStats)) (pid : Nat) (st0 st : PStats)
    (h : lookupStats db pid = some st0) :
    lookupStats (updateStatsRow db pid st) pid = some st := by
  induction db with
  | nil => cases h
  | cons e es ih =>
    by_cases he : e.1 = pid
    · have hmap : updateStatsRow (e :: es) pid st = (e.1, st) :: updateStatsRow es pid st := by
        simp [updateStatsRow, he]
      rw [hmap, lookupStats_cons]
      simp [he]
    · have hmap : updateStatsRow (e :: es) pid st = e :: updateStatsRow es pid st := by
        simp [updateStatsRow, he]
      rw [hmap, lookupStats_cons, if_neg he]
      rw [lookupStats_cons, if_neg he] at h
      exact ih h

theorem lookupStats_updateRow_other (db : List (Nat × PStats)) (pid c : Nat) (st : PStats)
    (hc : c ≠ pid) :
    lookupStats (updateStatsRow db c st) pid = lookupStats db pid := by
  induction db with
  | nil => rfl
  | cons e es ih =>
    by_cases he : e.1 = c
    · have hmap : updateStatsRow (e :: es) c st = (e.1, st) :: updateStatsRow es c st := by
        simp [updateStatsRow, he]
      have hne : ¬e.1 = pid := by rw [he]; exact hc
      rw [hmap, lookupStats_cons, lookupStats_cons, if_neg hne, if_neg hne]
      exact ih
    · have hmap : updateStatsRow (e :: es) c st = e :: updateStatsRow es c st := by
        simp [updateStatsRow, he]
      rw [hmap, lookupStats_cons, lookupStats_cons]
      by_cases hep : e.1 = pid
      · rw [if_pos hep, if_pos hep]
      · rw [if_neg hep, if_neg hep]
        exact ih

theorem lookupStats_updateOne_self (wid : Option Nat) (m : Nat)
    (db : List (Nat × PStats)) (pid : Nat) :
    lookupStats (updateOneStat wid m db pid) pid =
      some (match lookupStats db pid with
        | none => initialStats wid pid
        | some st => advanceStats wid m pid st) := by
  unfold updateOneStat
  cases h : lookupStats db pid with
  | none => exact lookupStats_append_of_none db pid _ h
  | some st => exact lookupStats_updateRow_self db pid st _ h

theorem lookupStats_updateOne_other (wid : Option Nat) (m : Nat)
    (db : List (Nat × PStats)) (pid c : Nat) (hc : c ≠ pid) :
    lookupStats (updateOneStat wid m db c) pid = lookupStats db pid := by
  unfold updateOneStat
  cases h : lookupStats db c with
  | none => exact lookupStats_append_other db pid c _ hc
  | some st => exact lookupStats_updateRow_other db pid c _ hc

theorem advance_eq_spec (wid : Option Nat) (m pid : Nat) (st : PStats) :
    advanceStats wid m pid st = specAdvanced wid m pid st := by
  unfold advanceStats specAdvanced specWinRate specWinnerEfficiency
  by_cases h : wid = some pid
  · simp [h]
  · simp [h]

/-- C8 (amended): at game completion each of the two participants' stats
rows is updated exactly once; an existing row is advanced by the spec's
formulas (`gamesPlayed + 1`, `gamesWon + 1` iff winner,
`winRate = round(gamesWon / gamesPlayed * 10000)`, and for the winner only
the running-average efficiency update); a missing row is initialized with
the source's literal first-game values — `gamesPlayed = 1`, `gamesWon = 1`
iff winner, `winRate = 10000` iff winner else `0`, and `efficiency = 0`
(not the spec formula's first-game efficiency). -/
theorem updatePlayerStats_spec (a b : Nat) (hab : a ≠ b) (winnerId : Option Nat)
    (m : Nat) (db : List (Nat × PStats)) :
    (∀ st, lookupStats db a = some st →
      lookupStats (updatePlayerStats [a, b] winnerId m db) a =
        some (specAdvanced winnerId m a st)) ∧
    (∀ st, lookupStats db b = some st →
      lookupStats (updatePlayerStats [a, b] winnerId m db) b =
        some (specAdvanced winnerId m b st)) ∧
    (lookupStats db a = none →
      lookupStats (updatePlayerStats [a, b] winnerId m db) a =
        some (initialStats winnerId a)) ∧
    (lookupStats db b = none →
      lookupStats (updatePlayerStats [a, b] winnerId m db) b =
        some (initialStats winnerId b)) := by
  have hfold : updatePlayerStats [a, b] winnerId m db =
      updateOneStat winnerId m (updateOneStat winnerId m db a) b := rfl
  refine ⟨?_, ?_, ?_, ?_⟩
  · intro st hst
    rw [hfold, lookupStats_updateOne_other winnerId m _ a b (Ne.symm hab),
      lookupStats_updateOne_self, hst, ← advance_eq_spec]
  · intro st hst
    rw [hfold, lookupStats_updateOne_self,
      lookupStats_updateOne_other winnerId m db b a hab, hst, ← advance_eq_spec]
  · intro hnone
    rw [hfold, lookupStats_updateOne_other winnerId m _ a b (Ne.symm hab),
      lookupStats_updateOne_self, hnone]
  · intro hnone
    rw [hfold, lookupStats_updateOne_self,
      lookupStats_updateOne_other winnerId m db b a hab, hnone]

/-- Counterexample for C8 as stated: a winner with no prior stats row gets
`efficiency = 0` from the source's insert branch, while the claim's formula
(`round(((0 / 100 × 0) + ceil(5 / 2)) / 1 × 100)`) yields 300. -/
theorem updatePlayerStats_counterexample :
    lookupStats (updatePlayerStats [1, 2] (some 1) 5 []) 1 ≠
      some (specFirstGame (some 1) 5 1) := by
  have hcode : lookupStats (updatePlayerStats [1, 2] (some 1) 5 []) 1 =
      some ⟨1, 1, 0, 10000, 0⟩ := by decide
  have heff : (specFirstGame (some 1) 5 1).efficiency = 300 := by
    show (if (some 1 : Option Nat) = some 1 then
      specWinnerEfficiency 0 0 5 (0 + 1) else 0) = 300
    rw [if_pos rfl]
    unfold specWinnerEfficiency jsRound
    norm_num
  rw [hcode]
  intro hcontra
  injection hcontra with h
  have h2 := congrArg PStats.efficiency h
  rw [heff] at h2
  simp at h2

/-- Witness for C8 at concrete stats rows: player 1 (with a prior row) beats
player 2 (without one) on final move 5. -/
theorem updatePlayerStats_spec_witness :
    (∀ st, lookupStats [(1, ⟨2, 1, 0, 5000, 200⟩)] 1 = some st →
      lookupStats (updatePlayerStats [1, 2] (some 1) 5 [(1, ⟨2, 1, 0, 5000, 200⟩)]) 1 =
        some (specAdvanced (some 1) 5 1 st)) ∧
    (∀ st, lookupStats [(1, ⟨2, 1, 0, 5000, 200⟩)] 2 = some st →
      lookupStats (updatePlayerStats [1, 2] (some 1) 5 [(1, ⟨2, 1, 0, 5000, 200⟩)]) 2 =
        some (specAdvanced (some 1) 5 2 st)) ∧
    (lookupStats [(1, ⟨2, 1, 0, 5000, 200⟩)] 1 = none →
      lookupStats (updatePlayerStats [1, 2] (some 1) 5 [(1, ⟨2, 1, 0, 5000, 200⟩)]) 1 =
        some (initialStats (some 1) 1)) ∧
    (lookupStats [(1, ⟨2, 1, 0, 5000, 200⟩)] 2 = none →
      lookupStats (updatePlayerStats [1, 2] (some 1) 5 [(1, ⟨2, 1, 0, 5000, 200⟩)]) 2 =
        some (initialStats (some 1) 2)) :=
  updatePlayerStats_spec 1 2 (by decide) (some 1) 5 [(1, ⟨2, 1, 0, 5000, 200⟩)]

theorem mem_lbJoin (w : World) (r : LbRow) (h : r ∈ lbJoin w) :
    (r.playerId, r.st) ∈ w.stats := by
  unfold lbJoin at h
  rw [List.mem_filterMap] at h
  obtain ⟨pr, hpr, hmap⟩ := h
  rw [Option.map_eq_some'] at hmap
  obtain ⟨nm, _, hr⟩ := hmap
  rw [← hr]
  exact hpr

theorem mem_of_mem_leaderboard (w : World) (e : LeaderboardEntry)
    (h : e ∈ getLeaderboard w) :
    ∃ r, r ∈ lbJoin w ∧ (0 < r.st.gamesWon) ∧
      e = ⟨r.playerId, r.playerName, r.st.gamesWon,
        (r.st.winRate : Rat) / 100, (r.st.efficiency : Rat) / 100⟩ := by
  unfold getLeaderboard at h
  rw [List.mem_map] at h
  obtain ⟨r, hr, he⟩ := h
  have hr2 : r ∈ ((lbJoin w).filter (fun x => 0 < x.st.gamesWon)).insertionSort lbLe :=
    (List.take_sublist 3 _).subset hr
  have hr3 : r ∈ (lbJoin w).filter (fun x => 0 < x.st.gamesWon) :=
    (List.perm_insertionSort lbLe _).subset hr2
  rw [List.mem_filter] at hr3
  exact ⟨r, hr3.1, by simpa using hr3.2, he.symm⟩

/-- C9: `getLeaderboard` (the source fixes the spec's `limit` at its default
3) returns only entries with at least one win, ordered by wins descending
with ties broken by rescaled efficiency ascending, at most 3 of them, each
carrying a stored stats row's `winRate` and `efficiency` divided by 100; and
it returns the empty list when no stats row records a win. -/
theorem getLeaderboard_spec (w : World) :
    (∀ e ∈ getLeaderboard w, 0 < e.gamesWon) ∧
    List.Pairwise entryRank (getLeaderboard w) ∧
    (getLeaderboard w).length ≤ 3 ∧
    (∀ e ∈ getLeaderboard w, ∃ st, (e.playerId, st) ∈ w.stats ∧ 0 < st.gamesWon ∧
      e.gamesWon = st.gamesWon ∧ e.winRate = (st.winRate : Rat) / 100 ∧
      e.efficiency = (st.efficiency : Rat) / 100) ∧
    ((∀ pr ∈ w.stats, pr.2.gamesWon = 0) → getLeaderboard w = []) := by
  refine ⟨?_, ?_, ?_, ?_, ?_⟩
  · intro e he
    obtain ⟨r, _, hwon, he⟩ := mem_of_mem_leaderboard w e he
    rw [he]
    exact hwon
  · unfold getLeaderboard
    have hsorted : List.Pairwise lbLe
        (((lbJoin w).filter (fun x => 0 < x.st.gamesWon)).insertionSort lbLe) :=
      List.sorted_insertionSort lbLe _
    have htake : List.Pairwise lbLe
        ((((lbJoin w).filter (fun x => 0 < x.st.gamesWon)).insertionSort lbLe).take 3) :=
      List.Pairwise.sublist (List.take_sublist 3 _) hsorted
    refine List.Pairwise.map _ ?_ htake
    intro x y hxy
    unfold lbLe at hxy
    unfold entryRank
    rcases hxy with hlt | ⟨heq, hle⟩
    · exact Or.inl hlt
    · refine Or.inr ⟨heq, ?_⟩
      exact (div_le_div_iff_of_pos_right (by norm_num : (0 : Rat) < 100)).mpr (by exact_mod_cast hle)
  · unfold getLeaderboard
    rw [List.length_map, List.length_take]
    omega
  · intro e he
    obtain ⟨r, hjoin, hwon, he⟩ := mem_of_mem_leaderboard w e he
    refine ⟨r.st, ?_, hwon, by rw [he], by rw [he], by rw [he]⟩
    have := mem_lbJoin w r hjoin
    rw [he]
    exact this
  · intro hzero
    unfold getLeaderboard
    have hfil : (lbJoin w).filter (fun x => 0 < x.st.gamesWon) = [] := by
      rw [List.filter_eq_nil_iff]
      intro r hr
      have := mem_lbJoin w r hr
      have hz := hzero (r.playerId, r.st) this
      simp at hz
      simp [hz]
    rw [hfil]
    rfl

/-- Witness for C9 at a concrete store with two winning rows. -/
theorem getLeaderboard_spec_witness :
    (∀ e ∈ getLeaderboard lbWorld, 0 < e.gamesWon) ∧
    List.Pairwise entryRank (getLeaderboard lbWorld) ∧
    (getLeaderboard lbWorld).length ≤ 3 ∧
    (∀ e ∈ getLeaderboard lbWorld, ∃ st, (e.playerId, st) ∈ lbWorld.stats ∧
      0 < st.gamesWon ∧ e.gamesWon = st.gamesWon ∧ e.winRate = (st.winRate : Rat) / 100 ∧
      e.efficiency = (st.efficiency : Rat) / 100) ∧
    ((∀ pr ∈ lbWorld.stats, pr.2.gamesWon = 0) → getLeaderboard lbWorld = []) :=
  getLeaderboard_spec lbWorld

/-- C10: every successful `createPlayer` also inserts an all-zero stats row
keyed by the fresh serial id, so `getPlayerStats` on the returned player
immediately succeeds with zeros instead of failing, before any game is
joined. -/
theorem createPlayer_initializes_stats (w : World) (name : String) (w' : World) (p : Player)
    (hfresh : lookupStats w.stats (w.players.length + 1) = none)
    (hcreate : createPlayer w name = (w', .ok p)) :
    getPlayerStats w' p.id = .ok ⟨0, 0, 0, 0⟩ := by
  unfold createPlayer at hcreate
  by_cases hn : (jsTrim name).length = 0
  · rw [if_pos hn] at hcreate
    simp at hcreate
  · rw [if_neg hn] at hcreate
    simp only [Prod.mk.injEq] at hcreate
    obtain ⟨hw', hp⟩ := hcreate
    injection hp with hp
    subst hw'
    subst hp
    show getPlayerStats _ (w.players.length + 1) = _
    unfold getPlayerStats
    rw [show ({ w with
        players := w.players ++ [jsTrim name]
        stats := w.stats ++ [(w.players.length + 1, ⟨0, 0, 0, 0, 0⟩)] } : World).stats =
      w.stats ++ [(w.players.length + 1, ⟨0, 0, 0, 0, 0⟩)] from rfl]
    rw [lookupStats_append_of_none w.stats (w.players.length + 1) ⟨0, 0, 0, 0, 0⟩ hfresh]
    norm_num

/-- Witness for C10: registering a third player in the demo store yields an
all-zero stats view. -/
theorem createPlayer_initializes_stats_witness :
    getPlayerStats (createPlayer waitingWorld "Carol").1 3 = .ok ⟨0, 0, 0, 0⟩ :=
  createPlayer_initializes_stats waitingWorld "Carol" (createPlayer waitingWorld "Carol").1
    ⟨3, "Carol"⟩ rfl (by rfl)
